import Mathlib

/-!
Verification of the ig65m dreamer script (`ig65m/cli/dreamer.py`).

Tensors are modelled as total functions from natural-number indices to real
numbers; a shape `(B, C, T, H, W)` is carried alongside and all reductions
(sums, means) range over `Finset.range` of the relevant extents.  The
optimization loop of `main` is modelled as a state-transition function on a
record holding the clip and its gradient buffer; the pretrained network and
autograd engine (which live outside the script) enter as abstract function
parameters.
-/

namespace Dreamer

/-- A 5-dimensional clip tensor, indexed `(batch, channel, time, height, width)`. -/
abbrev Clip : Type := ℕ → ℕ → ℕ → ℕ → ℕ → ℝ

/-- Sum of a clip's entries over the box of shape `(B, C, T, H, W)`
(the `.sum()` reduction of torch). -/
def sumClip (B C T H W : ℕ) (f : Clip) : ℝ :=
  ∑ b ∈ Finset.range B, ∑ c ∈ Finset.range C, ∑ t ∈ Finset.range T,
    ∑ h ∈ Finset.range H, ∑ w ∈ Finset.range W, f b c t h w

/-- Sum of absolute values over the box (`.abs().sum()`). -/
def sumAbs (B C T H W : ℕ) (f : Clip) : ℝ :=
  sumClip B C T H W (fun b c t h w => |f b c t h w|)

/-- The method `TotalVariationLoss.forward`: the three slice differences
`inputs[:, :, :-1, :, :] - inputs[:, :, 1:, :, :]` (time axis), and likewise
along height and width, each `.abs().sum()`, added together.  A difference
tensor along an axis of extent `n` has extent `n - 1` on that axis. -/
def TotalVariationLoss.forward (B C T H W : ℕ) (x : Clip) : ℝ :=
  sumAbs B C (T - 1) H W (fun b c t h w => x b c t h w - x b c (t + 1) h w)
    + sumAbs B C T (H - 1) W (fun b c t h w => x b c t h w - x b c t (h + 1) w)
    + sumAbs B C T H (W - 1) (fun b c t h w => x b c t h w - x b c t h (w + 1))

/-- The per-channel normalization means of `main`:
`mean = [0.43216, 0.394666, 0.37645]`. -/
def meanVals : List ℝ := [0.43216, 0.394666, 0.37645]

/-- The per-channel normalization standard deviations of `main`:
`std = [0.22803, 0.22145, 0.216989]`. -/
def stdVals : List ℝ := [0.22803, 0.22145, 0.216989]

/-- Lookup `mean[i]`. -/
def meanAt (i : ℕ) : ℝ := meanVals.getD i 0

/-- Lookup `std[i]`. -/
def stdAt (i : ℕ) : ℝ := stdVals.getD i 1

/-- Bound `cmin = (0. - mean[i]) / std[i]` from the clamp loop of `main`. -/
noncomputable def cminAt (i : ℕ) : ℝ := (0 - meanAt i) / stdAt i

/-- Bound `cmax = (1. - mean[i]) / std[i]` from the clamp loop of `main`. -/
noncomputable def cmaxAt (i : ℕ) : ℝ := (1 - meanAt i) / stdAt i

/-- Torch `clamp(lo, hi)`: `min (max x lo) hi`. -/
def clampT (lo hi x : ℝ) : ℝ := min (max x lo) hi

/-- The default layer weights of `main`: `weights = [0, 0, 1, 0, 0]`. -/
def defaultWeights : List ℝ := [0, 0, 1, 0, 0]

/-- The default channel selectors of `main`: `channels = [0, 0, 6, 0, 0]`
(declared `int64`, hence integers). -/
def defaultChannels : List ℤ := [0, 0, 6, 0, 0]

/-- The activation term of the loss:
`for act, w, c in zip(acts, weights, channels): loss += w * act.norm()`.
The five activations are opaque tensors produced by the pretrained network; the
`norm` reduction on them enters as the abstract function `normA`.  The channel
selector `c` is bound by the `zip` but unused in the loop body (the
single-channel variant is commented out in the source). -/
def activationTerm (Act : Type) (normA : Act → ℝ) (acts : List Act)
    (weights : List ℝ) (channels : List ℤ) : ℝ :=
  (acts.zip (weights.zip channels)).foldl (fun l p => l + p.2.1 * normA p.1) 0

/-- The per-iteration scalar loss of `main`: the activation term, followed by
`tv = -1 * variation(video) * args.gamma; loss += tv`. -/
def iterLoss (Act : Type) (normA : Act → ℝ) (acts : List Act)
    (weights : List ℝ) (channels : List ℤ) (gamma tvVal : ℝ) : ℝ :=
  activationTerm Act normA acts weights channels + -1 * tvVal * gamma

/-- The mutable state of the optimization loop: the clip (`video`, batched with
a leading batch axis of extent 1) and its gradient buffer (`video.grad`). -/
structure DreamState where
  video : Clip
  grad : Clip

/-- The all-zero clip (the state of a freshly reset gradient buffer). -/
def zeroClip : Clip := fun _ _ _ _ _ => 0

/-- Number of elements of a batched clip of shape `(1, C, T, H, W)`. -/
def numel (C T H W : ℕ) : ℕ := 1 * C * T * H * W

/-- Mean of all entries of the batched clip (torch `.mean()`). -/
noncomputable def clipMean (C T H W : ℕ) (f : Clip) : ℝ :=
  sumClip 1 C T H W f / (numel C T H W : ℝ)

/-- Unbiased variance of all entries (torch divides by `numel - 1`). -/
noncomputable def clipVar (C T H W : ℕ) (f : Clip) : ℝ :=
  sumClip 1 C T H W (fun b c t h w => (f b c t h w - clipMean C T H W f) ^ 2)
    / ((numel C T H W : ℝ) - 1)

/-- Standard deviation of all entries (torch `.std()`). -/
noncomputable def clipStd (C T H W : ℕ) (f : Clip) : ℝ :=
  Real.sqrt (clipVar C T H W f)

/-- The denominator of the gradient normalization: `grad.std() + 1e-12`. -/
noncomputable def normDenom (C T H W : ℕ) (g : Clip) : ℝ :=
  clipStd C T H W g + 1e-12

/-- The normalized gradient: `grad /= grad.std() + 1e-12`. -/
noncomputable def normGrad (C T H W : ℕ) (g : Clip) : Clip :=
  fun b c t h w => g b c t h w / normDenom C T H W g

/-- The gradient-ascent update: `video.data += args.lr * grad`. -/
def ascendClip (lr : ℝ) (v g : Clip) : Clip :=
  fun b c t h w => v b c t h w + lr * g b c t h w

/-- The clamp loop of `main`: `for i in range(video.size(1)):
video.data[0, i].clamp_(cmin, cmax)` — batch index 0, every channel `i < C`. -/
noncomputable def clampLoop (C : ℕ) (v : Clip) : Clip := fun b c t h w =>
  if b = 0 ∧ c < C then clampT (cminAt c) (cmaxAt c) (v b c t h w)
  else v b c t h w

/-- Backpropagation: `loss.backward()` accumulates the new gradient into the existing buffer
(PyTorch adds into `.grad`; an unset buffer behaves as zero).  The gradient of
the loss with respect to the clip is computed by the autograd engine outside
this script and enters as the abstract function `bw`. -/
def accumGrad (bw : Clip → Clip) (s : DreamState) : Clip :=
  fun b c t h w => s.grad b c t h w + bw s.video b c t h w

/-- One iteration of the optimization loop of `main` on a batched clip of shape
`(1, C, T, H, W)`: backpropagate (accumulate the gradient), normalize the
gradient by its standard deviation plus epsilon, ascend, clamp every channel to
the normalized `[0, 1]` range, and zero the gradient buffer. -/
noncomputable def stepDream (C T H W : ℕ) (lr : ℝ) (bw : Clip → Clip)
    (s : DreamState) : DreamState :=
  { video := clampLoop C
      (ascendClip lr s.video (normGrad C T H W (accumGrad bw s))),
    grad := zeroClip }

/-- A clip together with its shape `(C, T, H, W)` (sizes of `video.size()`
after the batch axis is removed; the batch axis itself always has extent 1). -/
structure ShapedClip where
  C : ℕ
  T : ℕ
  H : ℕ
  W : ℕ
  data : Clip

/-- The loop state right after `initialize`: the loaded clip, with its gradient
buffer behaving as all-zero (PyTorch leaves `.grad` unset until the first
backward pass, which then accumulates onto zero). -/
def initState (v : ShapedClip) : DreamState :=
  { video := v.data, grad := zeroClip }

/-- The guarded optimization phase of `main`: the assertion
`video.size()[0:2] == (3, 32)` runs before the loop; if it passes, the loop
body runs `epochs` times (`for epoch in progress`), otherwise the process
dies with an `AssertionError` (modelled as `none`). -/
noncomputable def dreamLoop (lr : ℝ) (bw : Clip → Clip) (epochs : ℕ)
    (v : ShapedClip) : Option ShapedClip :=
  if v.C = 3 ∧ v.T = 32 then
    some { v with
      data := ((fun s => stepDream v.C v.T v.H v.W lr bw s)^[epochs]
        (initState v)).video }
  else none

/-- Shape of the result of the guarded loop, when it did not raise. -/
def shapeQuad (r : Option ShapedClip) : Option (ℕ × ℕ × ℕ × ℕ) :=
  r.map (fun v => (v.C, v.T, v.H, v.W))

/-- Remove the batch axis: `rearrange(video, "() c t h w -> c t h w")`. -/
def unbatch (d : Clip) : ℕ → ℕ → ℕ → ℕ → ℝ := fun c t h w => d 0 c t h w

/-- Modelled from the spec: `Denormalize` from `ig65m.transforms` is not under
`src/`; the spec's finalize step says "denormalize (invert mean/std)", i.e.
per-channel `x * std[c] + mean[c]`. -/
def denormalize (d : ℕ → ℕ → ℕ → ℕ → ℝ) : ℕ → ℕ → ℕ → ℕ → ℝ :=
  fun c t h w => d c t h w * stdAt c + meanAt c

/-- Axis permutation `rearrange(video, "c t h w -> t h w c")`. -/
def toFrameMajor (d : ℕ → ℕ → ℕ → ℕ → ℝ) : ℕ → ℕ → ℕ → ℕ → ℝ :=
  fun t h w c => d c t h w

/-- In-place `video.clamp_(0, 1)` applied elementwise. -/
def clamp01 (d : ℕ → ℕ → ℕ → ℕ → ℝ) : ℕ → ℕ → ℕ → ℕ → ℝ :=
  fun t h w c => clampT 0 1 (d t h w c)

/-- Conversion `(value * 255).astype(np.uint8)` for one element: scale, then truncate to
an unsigned 8-bit integer (for the values at hand, in `[0, 255]`, the C cast
is truncation toward zero, i.e. the floor of a nonnegative number). -/
noncomputable def toUInt8Val (x : ℝ) : ℕ := (⌊x * 255⌋).toNat

/-- The array handed to the GIF encoder, with its shape `(T, H, W, C)`. -/
structure OutImage where
  T : ℕ
  H : ℕ
  W : ℕ
  C : ℕ
  data : ℕ → ℕ → ℕ → ℕ → ℕ

/-- The finalize phase of `main` on the batched clip: remove the batch axis,
denormalize, rearrange to frame-major `(t, h, w, c)`, clamp to `[0, 1]`,
scale by 255 and convert to unsigned 8-bit. -/
noncomputable def finalize (v : ShapedClip) : OutImage :=
  { T := v.T, H := v.H, W := v.W, C := v.C,
    data := fun t h w c =>
      toUInt8Val (clamp01 (toFrameMajor (denormalize (unbatch v.data))) t h w c) }

/-- One loop iteration together with the scalar loss it backpropagates and
reports, as a function of the channel-selector list (`channels`): the loss is
the zip-fold over activations, weights and channels plus the total-variation
term, and the state update is `stepDream`.  The network's activations for the
current clip enter as the abstract `actsOf`. -/
noncomputable def stepWithLoss (C T H W : ℕ) (lr gamma : ℝ) (Act : Type)
    (normA : Act → ℝ) (actsOf : Clip → List Act) (bw : Clip → Clip)
    (weights : List ℝ) (channels : List ℤ) (s : DreamState) :
    DreamState × ℝ :=
  (stepDream C T H W lr bw s,
    iterLoss Act normA (actsOf s.video) weights channels gamma
      (TotalVariationLoss.forward 1 C T H W s.video))

/-- The pretrained network's parameter state: an abstract vector of weights
and the per-parameter `requires_grad` flags.  The network itself
(`r2plus1d_34_32_ig65m` from `ig65m.models`, not under `src/`) is opaque; only
the script's handling of its parameters is modelled. -/
structure ModelParams where
  weight : ℕ → ℝ
  requiresGrad : ℕ → Bool

/-- Freezing: `for params in model.parameters(): params.requires_grad = False`. -/
def freezeParams (m : ModelParams) : ModelParams :=
  { m with requiresGrad := fun _ => false }

/-- The full mutable state visible to the loop: the frozen model and the
clip/gradient pair. -/
structure RunState where
  model : ModelParams
  dream : DreamState

/-- One loop iteration at the level of the full run state: the forward and
backward passes read the model's parameters (through `bwOf`), and the update
writes only the clip and its gradient buffer. -/
noncomputable def stepRun (C T H W : ℕ) (lr : ℝ)
    (bwOf : ModelParams → Clip → Clip) (s : RunState) : RunState :=
  { model := s.model,
    dream := stepDream C T H W lr (bwOf s.model) s.dream }

end Dreamer

namespace Dreamer

/-- Claim C4: `TotalVariationLoss.forward`, applied to any 5-dimensional clip
batch, returns a scalar equal to the sum of the absolute values of
adjacent-element differences along the time axis, plus the same along the
height axis, plus the same along the width axis. -/
theorem tv_forward_is_sum_of_axis_differences (B C T H W : ℕ) (x : Clip) :
    TotalVariationLoss.forward B C T H W x
      = (∑ b ∈ Finset.range B, ∑ c ∈ Finset.range C, ∑ t ∈ Finset.range (T - 1),
          ∑ h ∈ Finset.range H, ∑ w ∈ Finset.range W, |x b c (t + 1) h w - x b c t h w|)
        + (∑ b ∈ Finset.range B, ∑ c ∈ Finset.range C, ∑ t ∈ Finset.range T,
          ∑ h ∈ Finset.range (H - 1), ∑ w ∈ Finset.range W, |x b c t (h + 1) w - x b c t h w|)
        + (∑ b ∈ Finset.range B, ∑ c ∈ Finset.range C, ∑ t ∈ Finset.range T,
          ∑ h ∈ Finset.range H, ∑ w ∈ Finset.range (W - 1), |x b c t h (w + 1) - x b c t h w|) := by
  simp only [TotalVariationLoss.forward, sumAbs, sumClip, abs_sub_comm]

/-- Claim C8: the total-variation loss of a clip batch all of whose entries are
equal is exactly 0. -/
theorem tv_of_constant_clip_eq_zero (B C T H W : ℕ) (x : Clip) (v : ℝ)
    (hconst : ∀ b c t h w, x b c t h w = v) :
    TotalVariationLoss.forward B C T H W x = 0 := by
  simp [TotalVariationLoss.forward, sumAbs, sumClip, hconst]

/-- Witness for C8 at a concrete constant clip of shape `(1, 1, 2, 2, 2)`. -/
theorem tv_of_constant_clip_eq_zero_witness :
    TotalVariationLoss.forward 1 1 2 2 2 (fun _ _ _ _ _ => 5) = 0 :=
  tv_of_constant_clip_eq_zero 1 1 2 2 2 (fun _ _ _ _ _ => 5) 5
    (fun _ _ _ _ _ => rfl)

/-- Claim C3: the backpropagated scalar loss equals the sum over the five
layers of `weight_i * norm(activation_i)` minus `gamma` times the total
variation, and with the default weight vector `[0, 0, 1, 0, 0]` only layer
index 2 contributes: the loss collapses to `norm(activation_2) - gamma * tv`. -/
theorem loss_is_weighted_norms_minus_gamma_tv (Act : Type) (normA : Act → ℝ)
    (a0 a1 a2 a3 a4 : Act) (w0 w1 w2 w3 w4 : ℝ) (c0 c1 c2 c3 c4 : ℤ)
    (gamma tvVal : ℝ) :
    iterLoss Act normA [a0, a1, a2, a3, a4] [w0, w1, w2, w3, w4]
        [c0, c1, c2, c3, c4] gamma tvVal
      = (w0 * normA a0 + w1 * normA a1 + w2 * normA a2 + w3 * normA a3
          + w4 * normA a4) - gamma * tvVal
    ∧ iterLoss Act normA [a0, a1, a2, a3, a4] defaultWeights defaultChannels
        gamma tvVal
      = normA a2 - gamma * tvVal := by
  constructor <;>
    simp only [iterLoss, activationTerm, defaultWeights, defaultChannels,
      List.zip_cons_cons, List.zip_nil_right, List.zip_nil_left,
      List.foldl_cons, List.foldl_nil] <;>
    ring

/-- Claim C5: the update step divides the accumulated gradient elementwise by
`grad.std() + 1e-12`, a denominator that is strictly positive for every
gradient, and adds `lr` times this normalized gradient to the clip. -/
theorem update_adds_lr_times_std_normalized_gradient (C T H W : ℕ) (g : Clip) :
    0 < normDenom C T H W g
    ∧ ∀ (lr : ℝ) (v : Clip) (b c t h w : ℕ),
        ascendClip lr v (normGrad C T H W g) b c t h w
          = v b c t h w + lr * (g b c t h w / normDenom C T H W g) := by
  constructor
  · have h := Real.sqrt_nonneg (clipVar C T H W g)
    have h12 : (0 : ℝ) < 1e-12 := by norm_num
    unfold normDenom clipStd
    linarith
  · intro lr v b c t h w
    rfl

/-- Claim C6: after an iteration the gradient buffer is exactly zero
(`video.grad.data.zero_()`), so the gradient accumulated by the next
iteration's backward pass is the fresh gradient of the current clip alone,
with no contribution carried over. -/
theorem grad_buffer_zeroed_each_iteration (C T H W : ℕ) (lr : ℝ)
    (bw : Clip → Clip) (s : DreamState) :
    (stepDream C T H W lr bw s).grad = zeroClip
    ∧ accumGrad bw (stepDream C T H W lr bw s)
        = bw ((stepDream C T H W lr bw s).video) := by
  refine ⟨rfl, ?_⟩
  funext b c t h w
  simp [accumGrad, stepDream, zeroClip]

/-- The normalized range of channel `c` and its denormalization: `x` lies
between `cmin` and `cmax` for channel `c`, and `x` denormalized
(`x * std[c] + mean[c]`, inverting the normalization) lies in `[0, 1]`. -/
def InChannelRange (c : ℕ) (x : ℝ) : Prop :=
  cminAt c ≤ x ∧ x ≤ cmaxAt c
    ∧ 0 ≤ x * stdAt c + meanAt c ∧ x * stdAt c + meanAt c ≤ 1

/-- Clamping any value to `[(0 - m) / sv, (1 - m) / sv]` with `sv > 0` lands in
that interval, and denormalizing the clamped value lands in `[0, 1]`. -/
lemma clampT_denorm_bounds (m sv y : ℝ) (hs : 0 < sv) :
    (0 - m) / sv ≤ clampT ((0 - m) / sv) ((1 - m) / sv) y
    ∧ clampT ((0 - m) / sv) ((1 - m) / sv) y ≤ (1 - m) / sv
    ∧ 0 ≤ clampT ((0 - m) / sv) ((1 - m) / sv) y * sv + m
    ∧ clampT ((0 - m) / sv) ((1 - m) / sv) y * sv + m ≤ 1 := by
  have hlohi : (0 - m) / sv ≤ (1 - m) / sv :=
    (div_le_div_iff_of_pos_right hs).mpr (by linarith)
  have h1 : (0 - m) / sv ≤ clampT ((0 - m) / sv) ((1 - m) / sv) y :=
    le_min (le_max_right y ((0 - m) / sv)) hlohi
  have h2 : clampT ((0 - m) / sv) ((1 - m) / sv) y ≤ (1 - m) / sv :=
    min_le_right _ _
  have hlo : (0 - m) / sv * sv = 0 - m := div_mul_cancel₀ _ hs.ne'
  have hhi : (1 - m) / sv * sv = 1 - m := div_mul_cancel₀ _ hs.ne'
  refine ⟨h1, h2, ?_, ?_⟩
  · nlinarith [mul_le_mul_of_nonneg_right h1 hs.le]
  · nlinarith [mul_le_mul_of_nonneg_right h2 hs.le]

/-- Claim C2: after every optimization iteration, each element of the clip in
channel `c` lies within `[(0 - mean[c]) / std[c], (1 - mean[c]) / std[c]]`, so
every element denormalized lies within `[0, 1]`; the invariant is established
by the per-channel clamp at the end of the iteration. -/
theorem clip_in_normalized_range_after_iteration (H W : ℕ) (lr : ℝ)
    (bw : Clip → Clip) (s : DreamState) (c t h w : ℕ) (hc : c < 3) :
    InChannelRange c ((stepDream 3 32 H W lr bw s).video 0 c t h w) := by
  have hs : 0 < stdAt c := by
    interval_cases c <;>
      norm_num [stdAt, stdVals, List.getD_cons_zero, List.getD_cons_succ]
  have key := clampT_denorm_bounds (meanAt c) (stdAt c)
    (ascendClip lr s.video (normGrad 3 32 H W (accumGrad bw s)) 0 c t h w) hs
  have hx : (stepDream 3 32 H W lr bw s).video 0 c t h w
      = clampT (cminAt c) (cmaxAt c)
          (ascendClip lr s.video (normGrad 3 32 H W (accumGrad bw s)) 0 c t h w) := by
    simp [stepDream, clampLoop, hc]
  unfold InChannelRange
  rw [hx]
  unfold cminAt cmaxAt
  exact key

/-- Witness for C2 at channel 0 of a concrete zero state with identity
backward function and shape `(1, 3, 32, 1, 1)`. -/
theorem clip_in_normalized_range_after_iteration_witness :
    InChannelRange 0
      ((stepDream 3 32 1 1 0 (fun v => v) ⟨zeroClip, zeroClip⟩).video 0 0 0 0 0) :=
  clip_in_normalized_range_after_iteration 1 1 0 (fun v => v)
    ⟨zeroClip, zeroClip⟩ 0 0 0 0 (by decide)

/-- Claim C1: for an input clip of shape `(3, 32, H, W)`, the array handed to
the GIF encoder after finalize has shape `(32, H, W, 3)` and every value is a
natural number at most 255, hence representable as an unsigned 8-bit
integer. -/
theorem finalize_output_shape_and_range (v : ShapedClip)
    (hC : v.C = 3) (hT : v.T = 32) :
    ((finalize v).T = 32 ∧ (finalize v).H = v.H ∧ (finalize v).W = v.W
      ∧ (finalize v).C = 3)
    ∧ ∀ t h w c, (finalize v).data t h w c ≤ 255 := by
  refine ⟨⟨hT, rfl, rfl, hC⟩, ?_⟩
  intro t h w c
  have hyle : clamp01 (toFrameMajor (denormalize (unbatch v.data))) t h w c ≤ 1 :=
    min_le_right _ _
  have hy0 : 0 ≤ clamp01 (toFrameMajor (denormalize (unbatch v.data))) t h w c :=
    le_min (le_max_right _ 0) zero_le_one
  show toUInt8Val (clamp01 (toFrameMajor (denormalize (unbatch v.data))) t h w c) ≤ 255
  unfold toUInt8Val
  refine Int.toNat_le.mpr ?_
  have h255 : clamp01 (toFrameMajor (denormalize (unbatch v.data))) t h w c * 255
      ≤ (255 : ℝ) := by nlinarith
  calc ⌊clamp01 (toFrameMajor (denormalize (unbatch v.data))) t h w c * 255⌋
      ≤ ⌊(255 : ℝ)⌋ := Int.floor_le_floor h255
    _ = 255 := by norm_num

/-- Witness for C1 at a concrete zero clip of shape `(3, 32, 4, 4)`. -/
theorem finalize_output_shape_and_range_witness :
    (((finalize ⟨3, 32, 4, 4, zeroClip⟩).T = 32
        ∧ (finalize ⟨3, 32, 4, 4, zeroClip⟩).H = 4
        ∧ (finalize ⟨3, 32, 4, 4, zeroClip⟩).W = 4
        ∧ (finalize ⟨3, 32, 4, 4, zeroClip⟩).C = 3)
      ∧ ∀ t h w c, (finalize ⟨3, 32, 4, 4, zeroClip⟩).data t h w c ≤ 255) :=
  finalize_output_shape_and_range ⟨3, 32, 4, 4, zeroClip⟩ rfl rfl

/-- Claim C7: for any synthetic input clip of shape `(3, 32, 128, 128)` and
one epoch, the guarded loop raises no assertion and the resulting clip still
has shape `(3, 32, 128, 128)`. -/
theorem loop_runs_without_error_and_keeps_shape (lr : ℝ) (bw : Clip → Clip)
    (d : Clip) :
    (dreamLoop lr bw 1 ⟨3, 32, 128, 128, d⟩).isSome = true
    ∧ shapeQuad (dreamLoop lr bw 1 ⟨3, 32, 128, 128, d⟩)
        = some (3, 32, 128, 128) := by
  constructor <;> simp [dreamLoop, shapeQuad]

/-- The zip-fold of the activation term yields the same value for any two
channel-selector lists of equal length: the selector is bound by the zip but
never read by the fold body. -/
lemma foldl_zip_ignores_channels {Act : Type} (normA : Act → ℝ) :
    ∀ (acts : List Act) (ws : List ℝ) (c1 c2 : List ℤ) (init : ℝ),
      c1.length = c2.length →
      (acts.zip (ws.zip c1)).foldl (fun l p => l + p.2.1 * normA p.1) init
        = (acts.zip (ws.zip c2)).foldl (fun l p => l + p.2.1 * normA p.1) init := by
  intro acts
  induction acts with
  | nil => intro ws c1 c2 init hlen; rfl
  | cons a as ih =>
    intro ws c1 c2 init hlen
    cases ws with
    | nil => rfl
    | cons w ws =>
      cases c1 with
      | nil =>
        cases c2 with
        | nil => rfl
        | cons y c2 => simp at hlen
      | cons x c1 =>
        cases c2 with
        | nil => simp at hlen
        | cons y c2 =>
          simp only [List.zip_cons_cons, List.foldl_cons]
          exact ih ws c1 c2 (init + w * normA a) (by simpa using hlen)

/-- Claim C9: the per-iteration loss, and the updated loop state, do not
depend on the channels configuration vector: for any two channel-selector
lists of equal length and identical other inputs, the iteration produces an
identical loss and identical clip contents (the single-channel
activation-maximization path is disabled). -/
theorem iteration_independent_of_channels (C T H W : ℕ) (lr gamma : ℝ)
    (Act : Type) (normA : Act → ℝ) (actsOf : Clip → List Act)
    (bw : Clip → Clip) (weights : List ℝ) (ch1 ch2 : List ℤ) (s : DreamState)
    (hlen : ch1.length = ch2.length) :
    stepWithLoss C T H W lr gamma Act normA actsOf bw weights ch1 s
      = stepWithLoss C T H W lr gamma Act normA actsOf bw weights ch2 s := by
  unfold stepWithLoss iterLoss activationTerm
  rw [foldl_zip_ignores_channels normA (actsOf s.video) weights ch1 ch2 0 hlen]

/-- Witness for C9: the default channel vector `[0, 0, 6, 0, 0]` and an
arbitrary other vector of length 5 give the same iteration result. -/
theorem iteration_independent_of_channels_witness :
    stepWithLoss 3 32 1 1 0 0 Unit (fun _ => 1) (fun _ => [(), (), (), (), ()])
        (fun v => v) defaultWeights defaultChannels ⟨zeroClip, zeroClip⟩
      = stepWithLoss 3 32 1 1 0 0 Unit (fun _ => 1)
        (fun _ => [(), (), (), (), ()]) (fun v => v) defaultWeights
        [1, 2, 3, 4, 5] ⟨zeroClip, zeroClip⟩ :=
  iteration_independent_of_channels 3 32 1 1 0 0 Unit (fun _ => 1)
    (fun _ => [(), (), (), (), ()]) (fun v => v) defaultWeights
    defaultChannels [1, 2, 3, 4, 5] ⟨zeroClip, zeroClip⟩ rfl

/-- Claim C10: the pretrained model's parameters are never modified by the
optimization loop: freezing sets every `requires_grad` flag to `false` while
leaving the weights untouched, and any number of loop iterations leaves the
model component of the run state unchanged — only the clip and its gradient
buffer are written. -/
theorem model_parameters_never_modified (C T H W : ℕ) (lr : ℝ)
    (bwOf : ModelParams → Clip → Clip) (s : RunState) (m : ModelParams)
    (n i : ℕ) :
    (freezeParams m).requiresGrad i = false
    ∧ (freezeParams m).weight = m.weight
    ∧ ((stepRun C T H W lr bwOf)^[n] s).model = s.model := by
  refine ⟨rfl, rfl, ?_⟩
  induction n with
  | zero => rfl
  | succ k ih =>
    rw [Function.iterate_succ_apply']
    exact ih

end Dreamer
